import Mathlib

/-!
# Verification of clamped.h (open-vm-tools)

A shallow embedding of the clamped (saturating) 32-bit arithmetic
primitives from `lib/include/clamped.h`, together with proofs of the
specified properties.

Machine integers are modelled as `Int` with explicit reduction modulo
`2^32` / `2^64` where the C code performs fixed-width arithmetic:

* `uint32` / `uint64` values are integers in `[0, 2^32)` / `[0, 2^64)`;
  their arithmetic wraps modulo the width (`wrapUInt32`, `wrapUInt64`).
* `int32` / `int64` values are integers in `[-2^31, 2^31)` /
  `[-2^63, 2^63)`; fixed-width operations and narrowing casts follow the
  two's-complement model (`wrapInt32`, `wrapInt64`), the behavior the
  code relies on.

Each C function writes `*out` and returns a `Bool`; it is embedded as a
function returning the pair `(out, ok)`.
-/

/-- `MAX_INT32` from vm_basic_types.h: `2^31 - 1`. -/
def MAX_INT32 : Int := 2147483647

/-- `MIN_INT32` from vm_basic_types.h: `-2^31`. -/
def MIN_INT32 : Int := -2147483648

/-- `MAX_UINT32` from vm_basic_types.h: `2^32 - 1`. -/
def MAX_UINT32 : Int := 4294967295

/-- Reduction of an integer to the unsigned 32-bit range `[0, 2^32)`:
the value of a `uint32` computation. -/
def wrapUInt32 (x : Int) : Int := x % 4294967296

/-- Reduction of an integer to the unsigned 64-bit range `[0, 2^64)`:
the value of a `uint64` computation. -/
def wrapUInt64 (x : Int) : Int := x % 18446744073709551616

/-- Two's-complement reduction of an integer to the signed 32-bit range
`[-2^31, 2^31)`: the value of an `int32` computation or of a narrowing
cast `(int32)x`. -/
def wrapInt32 (x : Int) : Int := (x + 2147483648) % 4294967296 - 2147483648

/-- Two's-complement reduction of an integer to the signed 64-bit range
`[-2^63, 2^63)`: the value of an `int64` computation. -/
def wrapInt64 (x : Int) : Int :=
  (x + 9223372036854775808) % 18446744073709551616 - 9223372036854775808

/-- `x` is a representable `int32` value. -/
def int32InRange (x : Int) : Prop := MIN_INT32 ≤ x ∧ x ≤ MAX_INT32

/-- `x` is a representable `uint32` value. -/
def uint32InRange (x : Int) : Prop := 0 ≤ x ∧ x ≤ MAX_UINT32

/-- `x` is a representable `int64` value. -/
def int64InRange (x : Int) : Prop :=
  -9223372036854775808 ≤ x ∧ x ≤ 9223372036854775807

/-- `x` is a representable `uint64` value. -/
def uint64InRange (x : Int) : Prop := 0 ≤ x ∧ x ≤ 18446744073709551615

instance (x : Int) : Decidable (int32InRange x) := by
  unfold int32InRange; exact inferInstance

instance (x : Int) : Decidable (uint32InRange x) := by
  unfold uint32InRange; exact inferInstance

instance (x : Int) : Decidable (int64InRange x) := by
  unfold int64InRange; exact inferInstance

instance (x : Int) : Decidable (uint64InRange x) := by
  unfold uint64InRange; exact inferInstance

/-- `Clamped_SAdd32` (clamped.h lines 67–88).  Signed 32-bit addition,
clamping to `MAX_INT32` / `MIN_INT32` on overflow.  Line 74 computes
`result = a + b` at `int32` width, which wraps in the two's-complement
model; the two sign/direction tests then detect overflow from the
wrapped result. -/
def Clamped_SAdd32 (a b : Int) : Int × Bool :=
  let result := wrapInt32 (a + b)
  if b > 0 ∧ result < a then (MAX_INT32, false)
  else if b < 0 ∧ result > a then (MIN_INT32, false)
  else (result, true)

/-- `Clamped_U64To32` (clamped.h lines 108–121).  Unsigned narrowing
conversion, clamping to `MAX_UINT32` instead of truncating.  `clamped`
is the cast `(uint32)a`; the comparison `a != clamped` is performed at
`uint64` width (zero-extension of `clamped`). -/
def Clamped_U64To32 (a : Int) : Int × Bool :=
  let clamped := wrapUInt32 a
  if a ≠ clamped then (MAX_UINT32, false)
  else (clamped, true)

/-- `Clamped_S64To32` (clamped.h lines 141–154).  Signed narrowing
conversion, clamping to `MAX_INT32` / `MIN_INT32` instead of
truncating.  `clamped` is the cast `(int32)a` (two's-complement
truncation); the comparison `a != clamped` is at `int64` width
(sign-extension of `clamped`). -/
def Clamped_S64To32 (a : Int) : Int × Bool :=
  let clamped := wrapInt32 a
  if a ≠ clamped then (if a < 0 then MIN_INT32 else MAX_INT32, false)
  else (clamped, true)

/-- `Clamped_UMul32` (clamped.h lines 179–185).  Unsigned 32-bit
multiplication: the product `(uint64)a * b` is formed at `uint64`
width and narrowed by `Clamped_U64To32`. -/
def Clamped_UMul32 (a b : Int) : Int × Bool :=
  Clamped_U64To32 (wrapUInt64 (a * b))

/-- `Clamped_SMul32` (clamped.h lines 205–211).  Signed 32-bit
multiplication: the product `(int64)a * b` is formed at `int64` width
and narrowed by `Clamped_S64To32`. -/
def Clamped_SMul32 (a b : Int) : Int × Bool :=
  Clamped_S64To32 (wrapInt64 (a * b))

/-- `Clamped_UAdd32` (clamped.h lines 234–248).  Unsigned 32-bit
addition, clamping to `MAX_UINT32` on overflow: `c = a + b` at
`uint32` width (wraps modulo `2^32`), overflow detected by
`c < a || c < b`. -/
def Clamped_UAdd32 (a b : Int) : Int × Bool :=
  let c := wrapUInt32 (a + b)
  if c < a ∨ c < b then (MAX_UINT32, false)
  else (c, true)

/-- Saturation of `x` to the interval `[lo, hi]`: the specification-side
notion of the nearest representable value. -/
def clampTo (lo hi x : Int) : Int := max lo (min x hi)

/-- Two's-complement reduction is the identity on representable values. -/
lemma wrapInt32_eq_self {x : Int} (h : int32InRange x) : wrapInt32 x = x := by
  unfold int32InRange MIN_INT32 MAX_INT32 at h
  unfold wrapInt32
  omega

/-- Unsigned 64-bit reduction is the identity on representable values. -/
lemma wrapUInt64_eq_self {x : Int} (h : uint64InRange x) : wrapUInt64 x = x := by
  unfold uint64InRange at h
  unfold wrapUInt64
  omega

/-- Signed 64-bit reduction is the identity on representable values. -/
lemma wrapInt64_eq_self {x : Int} (h : int64InRange x) : wrapInt64 x = x := by
  unfold int64InRange at h
  unfold wrapInt64
  omega

/-- The result component of `Clamped_SAdd32` on representable inputs is
the exact sum saturated to the `int32` range. -/
lemma sAdd32_fst {a b : Int} (ha : int32InRange a) (hb : int32InRange b) :
    (Clamped_SAdd32 a b).1 = clampTo MIN_INT32 MAX_INT32 (a + b) := by
  unfold int32InRange MIN_INT32 MAX_INT32 at ha hb
  simp only [Clamped_SAdd32, wrapInt32, clampTo, MIN_INT32, MAX_INT32]
  split_ifs <;> dsimp only <;> omega

/-- The ok flag of `Clamped_SAdd32` on representable inputs is true
exactly when the exact sum is representable. -/
lemma sAdd32_snd {a b : Int} (ha : int32InRange a) (hb : int32InRange b) :
    (Clamped_SAdd32 a b).2 = true ↔ int32InRange (a + b) := by
  unfold int32InRange MIN_INT32 MAX_INT32 at ha hb ⊢
  simp only [Clamped_SAdd32, wrapInt32, MIN_INT32, MAX_INT32]
  split_ifs <;> simp <;> omega

/-- The result component of `Clamped_U64To32` on a representable `uint64`
input is the input saturated to the `uint32` range. -/
lemma u64To32_fst {a : Int} (ha : uint64InRange a) :
    (Clamped_U64To32 a).1 = clampTo 0 MAX_UINT32 a := by
  unfold uint64InRange at ha
  simp only [Clamped_U64To32, wrapUInt32, MAX_UINT32, clampTo]
  split_ifs <;> dsimp only <;> omega

/-- The ok flag of `Clamped_U64To32` on a representable `uint64` input is
true exactly when the input is a representable `uint32`. -/
lemma u64To32_snd {a : Int} (ha : uint64InRange a) :
    (Clamped_U64To32 a).2 = true ↔ uint32InRange a := by
  unfold uint64InRange at ha
  unfold uint32InRange MAX_UINT32
  simp only [Clamped_U64To32, wrapUInt32, MAX_UINT32]
  split_ifs <;> simp <;> omega

/-- The result component of `Clamped_S64To32` on a representable `int64`
input is the input saturated to the `int32` range. -/
lemma s64To32_fst {a : Int} (ha : int64InRange a) :
    (Clamped_S64To32 a).1 = clampTo MIN_INT32 MAX_INT32 a := by
  unfold int64InRange at ha
  simp only [Clamped_S64To32, wrapInt32, MIN_INT32, MAX_INT32, clampTo]
  split_ifs <;> dsimp only <;> omega

/-- The ok flag of `Clamped_S64To32` on a representable `int64` input is
true exactly when the input is a representable `int32`. -/
lemma s64To32_snd {a : Int} (ha : int64InRange a) :
    (Clamped_S64To32 a).2 = true ↔ int32InRange a := by
  unfold int64InRange at ha
  unfold int32InRange MIN_INT32 MAX_INT32
  simp only [Clamped_S64To32, wrapInt32, MIN_INT32, MAX_INT32]
  split_ifs <;> simp <;> omega

/-- The result component of `Clamped_UAdd32` on representable inputs is
the exact sum saturated to the `uint32` range. -/
lemma uAdd32_fst {a b : Int} (ha : uint32InRange a) (hb : uint32InRange b) :
    (Clamped_UAdd32 a b).1 = clampTo 0 MAX_UINT32 (a + b) := by
  unfold uint32InRange MAX_UINT32 at ha hb
  simp only [Clamped_UAdd32, wrapUInt32, MAX_UINT32, clampTo]
  split_ifs <;> dsimp only <;> omega

/-- The ok flag of `Clamped_UAdd32` on representable inputs is true
exactly when the exact sum is representable. -/
lemma uAdd32_snd {a b : Int} (ha : uint32InRange a) (hb : uint32InRange b) :
    (Clamped_UAdd32 a b).2 = true ↔ uint32InRange (a + b) := by
  unfold uint32InRange MAX_UINT32 at ha hb ⊢
  simp only [Clamped_UAdd32, wrapUInt32, MAX_UINT32]
  split_ifs <;> simp <;> omega

/-- The product of two representable `uint32` values is a representable
`uint64` value. -/
lemma umul_product_inRange {a b : Int} (ha : uint32InRange a)
    (hb : uint32InRange b) : uint64InRange (a * b) := by
  unfold uint32InRange MAX_UINT32 at *
  unfold uint64InRange
  constructor
  · exact mul_nonneg ha.1 hb.1
  · calc a * b ≤ 4294967295 * 4294967295 :=
          mul_le_mul ha.2 hb.2 hb.1 (by norm_num)
      _ ≤ 18446744073709551615 := by norm_num

/-- The product of two representable `int32` values is a representable
`int64` value. -/
lemma smul_product_inRange {a b : Int} (ha : int32InRange a)
    (hb : int32InRange b) : int64InRange (a * b) := by
  unfold int32InRange MIN_INT32 MAX_INT32 at *
  unfold int64InRange
  have habs : |a * b| ≤ 2147483648 * 2147483648 := by
    rw [abs_mul]
    exact mul_le_mul (abs_le.mpr (by omega)) (abs_le.mpr (by omega))
      (abs_nonneg b) (by norm_num)
  rw [abs_le] at habs
  omega


/-- A pair is determined by its components. -/
lemma pair_eq {p : Int × Bool} {x : Int} {y : Bool} (h1 : p.1 = x)
    (h2 : p.2 = y) : p = (x, y) := by
  obtain ⟨u, v⟩ := p
  simp_all

/-- A Bool that is not true is false. -/
lemma ok_eq_false {b : Bool} (h : ¬ b = true) : b = false := by
  cases b
  · rfl
  · exact absurd rfl h

/-- **C1**: `Clamped_SAdd32` on `int32` inputs returns the exact sum with
`ok = true` when the infinite-precision sum is representable, and clamps
to `MAX_INT32` (resp. `MIN_INT32`) with `ok = false` when the exact sum
lies above (resp. below) the `int32` range. -/
theorem clamped_sadd32_correct (a b : Int)
    (ha : int32InRange a) (hb : int32InRange b) :
    (int32InRange (a + b) → Clamped_SAdd32 a b = (a + b, true)) ∧
    (MAX_INT32 < a + b → Clamped_SAdd32 a b = (MAX_INT32, false)) ∧
    (a + b < MIN_INT32 → Clamped_SAdd32 a b = (MIN_INT32, false)) := by
  have h1 := sAdd32_fst ha hb
  have h2 := sAdd32_snd ha hb
  unfold clampTo at h1
  unfold int32InRange MIN_INT32 MAX_INT32 at *
  refine ⟨fun h => ?_, fun h => ?_, fun h => ?_⟩
  · exact pair_eq (by omega) (h2.mpr (by omega))
  · exact pair_eq (by omega) (ok_eq_false (by rw [h2]; omega))
  · exact pair_eq (by omega) (ok_eq_false (by rw [h2]; omega))

/-- Witness for C1: `Clamped_SAdd32 3 4 = (7, true)`. -/
theorem clamped_sadd32_correct_witness : Clamped_SAdd32 3 4 = (7, true) :=
  (clamped_sadd32_correct 3 4 (by decide) (by decide)).1 (by decide)

/-- **C2**: narrowing round-trip and clamp.  `Clamped_U64To32` is the
identity (with `ok = true`) on `uint32`-representable inputs — widening
`uint32 → uint64` is the identity in the integer model, so the result
widens back to exactly the input — and clamps to `MAX_UINT32` with
`ok = false` above the range; `Clamped_S64To32` is the identity (with
`ok = true`) on `int32`-representable inputs and clamps to `MAX_INT32`
above the range and `MIN_INT32` below it, with `ok = false`. -/
theorem clamped_narrowing_correct (a b : Int)
    (ha : uint64InRange a) (hb : int64InRange b) :
    (uint32InRange a → Clamped_U64To32 a = (a, true)) ∧
    (MAX_UINT32 < a → Clamped_U64To32 a = (MAX_UINT32, false)) ∧
    (int32InRange b → Clamped_S64To32 b = (b, true)) ∧
    (MAX_INT32 < b → Clamped_S64To32 b = (MAX_INT32, false)) ∧
    (b < MIN_INT32 → Clamped_S64To32 b = (MIN_INT32, false)) := by
  have h1 := u64To32_fst ha
  have h2 := u64To32_snd ha
  have h3 := s64To32_fst hb
  have h4 := s64To32_snd hb
  unfold clampTo at h1 h3
  unfold uint64InRange int64InRange uint32InRange int32InRange MIN_INT32
    MAX_INT32 MAX_UINT32 at *
  refine ⟨fun h => ?_, fun h => ?_, fun h => ?_, fun h => ?_, fun h => ?_⟩
  · exact pair_eq (by omega) (h2.mpr (by omega))
  · exact pair_eq (by omega) (ok_eq_false (by rw [h2]; omega))
  · exact pair_eq (by omega) (h4.mpr (by omega))
  · exact pair_eq (by omega) (ok_eq_false (by rw [h4]; omega))
  · exact pair_eq (by omega) (ok_eq_false (by rw [h4]; omega))

/-- Witness for C2: `Clamped_U64To32 5 = (5, true)`. -/
theorem clamped_narrowing_correct_witness : Clamped_U64To32 5 = (5, true) :=
  (clamped_narrowing_correct 5 (-7) (by decide) (by decide)).1 (by decide)

/-- **C3**: `Clamped_UAdd32` reports overflow (`ok = false`, result
`MAX_UINT32`) exactly when the wrapped sum `c = (a + b) mod 2^32`
satisfies `c < a` or `c < b`, and otherwise returns `(c, true)` where
`c` equals the exact infinite-precision sum. -/
theorem clamped_uadd32_correct (a b : Int)
    (ha : uint32InRange a) (hb : uint32InRange b) :
    ((Clamped_UAdd32 a b).2 = false ↔
      (wrapUInt32 (a + b) < a ∨ wrapUInt32 (a + b) < b)) ∧
    ((wrapUInt32 (a + b) < a ∨ wrapUInt32 (a + b) < b) →
      Clamped_UAdd32 a b = (MAX_UINT32, false)) ∧
    (¬(wrapUInt32 (a + b) < a ∨ wrapUInt32 (a + b) < b) →
      Clamped_UAdd32 a b = (wrapUInt32 (a + b), true) ∧
        wrapUInt32 (a + b) = a + b) := by
  unfold uint32InRange MAX_UINT32 at ha hb
  simp only [Clamped_UAdd32, wrapUInt32, MAX_UINT32]
  split_ifs with hc
  · exact ⟨by simpa using hc, fun _ => rfl, fun h => absurd hc h⟩
  · exact ⟨by simpa using hc, fun h => absurd h hc, fun _ => ⟨rfl, by omega⟩⟩

/-- Witness for C3: `Clamped_UAdd32 4294967295 1` clamps. -/
theorem clamped_uadd32_correct_witness :
    Clamped_UAdd32 4294967295 1 = (4294967295, false) :=
  ((clamped_uadd32_correct 4294967295 1 (by decide) (by decide)).2.1
    (by decide))

/-- **C6**: the six concrete cases listed in the spec, evaluated on the
embedded code. -/
theorem clamped_concrete_cases :
    Clamped_SAdd32 2147483647 1 = (2147483647, false) ∧
    Clamped_UAdd32 4294967295 1 = (4294967295, false) ∧
    Clamped_U64To32 4294967296 = (4294967295, false) ∧
    Clamped_S64To32 (-2147483649) = (-2147483648, false) ∧
    Clamped_UMul32 4294967295 2 = (4294967295, false) ∧
    Clamped_SMul32 (-1) (-2147483648) = (2147483647, false) := by
  decide

/-- Two Bools related by an iff of their truth are equal. -/
lemma bool_eq_of_iff {a b : Bool} (h : a = true ↔ b = true) : a = b := by
  cases a <;> cases b <;> simp_all

/-- When `Clamped_SAdd32` reports failure its result is a clamp boundary. -/
lemma sAdd32_clamp (a b : Int) :
    (Clamped_SAdd32 a b).2 = false →
    (Clamped_SAdd32 a b).1 = MAX_INT32 ∨ (Clamped_SAdd32 a b).1 = MIN_INT32 := by
  simp only [Clamped_SAdd32]
  split_ifs <;> simp

/-- When `Clamped_U64To32` reports failure its result is `MAX_UINT32`. -/
lemma u64To32_clamp (a : Int) :
    (Clamped_U64To32 a).2 = false → (Clamped_U64To32 a).1 = MAX_UINT32 := by
  simp only [Clamped_U64To32]
  split_ifs <;> simp

/-- When `Clamped_S64To32` reports failure its result is a clamp boundary. -/
lemma s64To32_clamp (a : Int) :
    (Clamped_S64To32 a).2 = false →
    (Clamped_S64To32 a).1 = MAX_INT32 ∨ (Clamped_S64To32 a).1 = MIN_INT32 := by
  simp only [Clamped_S64To32]
  split_ifs <;> simp

/-- When `Clamped_UAdd32` reports failure its result is `MAX_UINT32`. -/
lemma uAdd32_clamp (a b : Int) :
    (Clamped_UAdd32 a b).2 = false → (Clamped_UAdd32 a b).1 = MAX_UINT32 := by
  simp only [Clamped_UAdd32]
  split_ifs <;> simp

/-- **C4**: multiplication is exactly narrowing of the wide product.  On
representable inputs the `uint64` (resp. `int64`) product formed by the
code equals the exact product, so `Clamped_UMul32` agrees with
`Clamped_U64To32` of the exact product, and `Clamped_SMul32` with
`Clamped_S64To32` of the exact signed product, as full (result, ok)
pairs. -/
theorem clamped_mul_eq_narrow (a b c d : Int)
    (ha : uint32InRange a) (hb : uint32InRange b)
    (hc : int32InRange c) (hd : int32InRange d) :
    Clamped_UMul32 a b = Clamped_U64To32 (a * b) ∧
    Clamped_SMul32 c d = Clamped_S64To32 (c * d) := by
  constructor
  · unfold Clamped_UMul32
    rw [wrapUInt64_eq_self (umul_product_inRange ha hb)]
  · unfold Clamped_SMul32
    rw [wrapInt64_eq_self (smul_product_inRange hc hd)]

/-- Witness for C4 at `a = 6, b = 7, c = -5, d = 9`. -/
theorem clamped_mul_eq_narrow_witness :
    Clamped_UMul32 6 7 = Clamped_U64To32 42 :=
  (clamped_mul_eq_narrow 6 7 (-5) 9 (by decide) (by decide) (by decide)
    (by decide)).1

/-- **C5**: output validity.  Every operation is a total function of its
(embedded) input domain by construction; on representable inputs the
result component is always a representable value of the output type, and
whenever `ok = false` the result is the clamp boundary (`MAX_INT32` /
`MIN_INT32` / `MAX_UINT32`), never a silently wrapped value. -/
theorem clamped_output_valid (a b u s p q m n x y : Int)
    (ha : int32InRange a) (hb : int32InRange b)
    (hu : uint64InRange u) (hs : int64InRange s)
    (hp : uint32InRange p) (hq : uint32InRange q)
    (hm : int32InRange m) (hn : int32InRange n)
    (hx : uint32InRange x) (hy : uint32InRange y) :
    (int32InRange (Clamped_SAdd32 a b).1 ∧
      ((Clamped_SAdd32 a b).2 = false →
        (Clamped_SAdd32 a b).1 = MAX_INT32 ∨
        (Clamped_SAdd32 a b).1 = MIN_INT32)) ∧
    (uint32InRange (Clamped_U64To32 u).1 ∧
      ((Clamped_U64To32 u).2 = false →
        (Clamped_U64To32 u).1 = MAX_UINT32)) ∧
    (int32InRange (Clamped_S64To32 s).1 ∧
      ((Clamped_S64To32 s).2 = false →
        (Clamped_S64To32 s).1 = MAX_INT32 ∨
        (Clamped_S64To32 s).1 = MIN_INT32)) ∧
    (uint32InRange (Clamped_UMul32 p q).1 ∧
      ((Clamped_UMul32 p q).2 = false →
        (Clamped_UMul32 p q).1 = MAX_UINT32)) ∧
    (int32InRange (Clamped_SMul32 m n).1 ∧
      ((Clamped_SMul32 m n).2 = false →
        (Clamped_SMul32 m n).1 = MAX_INT32 ∨
        (Clamped_SMul32 m n).1 = MIN_INT32)) ∧
    (uint32InRange (Clamped_UAdd32 x y).1 ∧
      ((Clamped_UAdd32 x y).2 = false →
        (Clamped_UAdd32 x y).1 = MAX_UINT32)) := by
  refine ⟨⟨?_, sAdd32_clamp a b⟩, ⟨?_, u64To32_clamp u⟩,
    ⟨?_, s64To32_clamp s⟩, ⟨?_, ?_⟩, ⟨?_, ?_⟩, ⟨?_, uAdd32_clamp x y⟩⟩
  · rw [sAdd32_fst ha hb]
    unfold int32InRange clampTo MIN_INT32 MAX_INT32
    omega
  · rw [u64To32_fst hu]
    unfold uint32InRange clampTo MAX_UINT32 at *
    omega
  · rw [s64To32_fst hs]
    unfold int32InRange clampTo MIN_INT32 MAX_INT32
    omega
  · unfold Clamped_UMul32
    rw [wrapUInt64_eq_self (umul_product_inRange hp hq),
      u64To32_fst (umul_product_inRange hp hq)]
    unfold uint32InRange clampTo MAX_UINT32
    have := (umul_product_inRange hp hq).1
    omega
  · unfold Clamped_UMul32
    exact u64To32_clamp _
  · unfold Clamped_SMul32
    rw [wrapInt64_eq_self (smul_product_inRange hm hn),
      s64To32_fst (smul_product_inRange hm hn)]
    unfold int32InRange clampTo MIN_INT32 MAX_INT32
    omega
  · unfold Clamped_SMul32
    exact s64To32_clamp _
  · rw [uAdd32_fst hx hy]
    unfold uint32InRange clampTo MAX_UINT32 at *
    omega

/-- Witness for C5 at concrete representable inputs. -/
theorem clamped_output_valid_witness :
    int32InRange (Clamped_SAdd32 2147483647 1).1 ∧
    ((Clamped_SAdd32 2147483647 1).2 = false →
      (Clamped_SAdd32 2147483647 1).1 = MAX_INT32 ∨
      (Clamped_SAdd32 2147483647 1).1 = MIN_INT32) :=
  (clamped_output_valid 2147483647 1 0 0 1 1 1 1 1 1 (by decide) (by decide)
    (by decide) (by decide) (by decide) (by decide) (by decide) (by decide)
    (by decide) (by decide)).1

/-- **C7**: commutativity of clamped addition, both result and ok flag,
for representable inputs. -/
theorem clamped_add_comm (a b c d : Int)
    (ha : uint32InRange a) (hb : uint32InRange b)
    (hc : int32InRange c) (hd : int32InRange d) :
    Clamped_UAdd32 a b = Clamped_UAdd32 b a ∧
    Clamped_SAdd32 c d = Clamped_SAdd32 d c := by
  constructor
  · refine Prod.ext_iff.mpr ⟨?_, ?_⟩
    · rw [uAdd32_fst ha hb, uAdd32_fst hb ha, Int.add_comm]
    · exact bool_eq_of_iff
        (by rw [uAdd32_snd ha hb, uAdd32_snd hb ha, Int.add_comm])
  · refine Prod.ext_iff.mpr ⟨?_, ?_⟩
    · rw [sAdd32_fst hc hd, sAdd32_fst hd hc, Int.add_comm]
    · exact bool_eq_of_iff
        (by rw [sAdd32_snd hc hd, sAdd32_snd hd hc, Int.add_comm])

/-- Witness for C7 at `a = 1, b = 4294967295, c = -3, d = 11`. -/
theorem clamped_add_comm_witness :
    Clamped_UAdd32 1 4294967295 = Clamped_UAdd32 4294967295 1 :=
  (clamped_add_comm 1 4294967295 (-3) 11 (by decide) (by decide) (by decide)
    (by decide)).1

/-- The saturation of `v` to `[lo, hi]` is at least as close to `v` as
any point of `[lo, hi]`. -/
lemma clampTo_closest {lo hi v y : Int} (hy1 : lo ≤ y) (hy2 : y ≤ hi) :
    |clampTo lo hi v - v| ≤ |y - v| := by
  unfold clampTo
  rcases abs_cases (max lo (min v hi) - v) with ⟨h1, h2⟩ | ⟨h1, h2⟩ <;>
    rcases abs_cases (y - v) with ⟨h3, h4⟩ | ⟨h3, h4⟩ <;>
    rw [h1, h3] <;> omega

/-- Saturation to a fixed interval is monotone. -/
lemma clampTo_mono {lo hi v1 v2 : Int} (h : v1 ≤ v2) :
    clampTo lo hi v1 ≤ clampTo lo hi v2 := by
  unfold clampTo
  omega

/-- **C9**: nearest-representable result.  For each operation on
representable inputs, the returned result is at least as close to the
exact infinite-precision value as any representable value of the output
type is — the exact value itself when in range, the nearer boundary
otherwise. -/
theorem clamped_nearest (a b u s p q m n x y : Int)
    (ha : int32InRange a) (hb : int32InRange b)
    (hu : uint64InRange u) (hs : int64InRange s)
    (hp : uint32InRange p) (hq : uint32InRange q)
    (hm : int32InRange m) (hn : int32InRange n)
    (hx : uint32InRange x) (hy : uint32InRange y) :
    (∀ w, int32InRange w →
      |(Clamped_SAdd32 a b).1 - (a + b)| ≤ |w - (a + b)|) ∧
    (∀ w, uint32InRange w → |(Clamped_U64To32 u).1 - u| ≤ |w - u|) ∧
    (∀ w, int32InRange w → |(Clamped_S64To32 s).1 - s| ≤ |w - s|) ∧
    (∀ w, uint32InRange w →
      |(Clamped_UMul32 p q).1 - p * q| ≤ |w - p * q|) ∧
    (∀ w, int32InRange w →
      |(Clamped_SMul32 m n).1 - m * n| ≤ |w - m * n|) ∧
    (∀ w, uint32InRange w →
      |(Clamped_UAdd32 x y).1 - (x + y)| ≤ |w - (x + y)|) := by
  refine ⟨fun w hw => ?_, fun w hw => ?_, fun w hw => ?_, fun w hw => ?_,
    fun w hw => ?_, fun w hw => ?_⟩
  · rw [sAdd32_fst ha hb]
    exact clampTo_closest hw.1 hw.2
  · rw [u64To32_fst hu]
    exact clampTo_closest hw.1 hw.2
  · rw [s64To32_fst hs]
    exact clampTo_closest hw.1 hw.2
  · have hpq := umul_product_inRange hp hq
    unfold Clamped_UMul32
    rw [wrapUInt64_eq_self hpq, u64To32_fst hpq]
    exact clampTo_closest hw.1 hw.2
  · have hmn := smul_product_inRange hm hn
    unfold Clamped_SMul32
    rw [wrapInt64_eq_self hmn, s64To32_fst hmn]
    exact clampTo_closest hw.1 hw.2
  · rw [uAdd32_fst hx hy]
    exact clampTo_closest hw.1 hw.2

/-- Witness for C9: the clamped sum at `(INT32_MAX, 1)` is at least as
close to the exact sum as the representable value `0` is. -/
theorem clamped_nearest_witness :
    |(Clamped_SAdd32 2147483647 1).1 - (2147483647 + 1)| ≤
      |0 - (2147483647 + 1)| :=
  (clamped_nearest 2147483647 1 0 0 1 1 1 1 1 1 (by decide) (by decide)
    (by decide) (by decide) (by decide) (by decide) (by decide) (by decide)
    (by decide) (by decide)).1 0 (by decide)

/-- **C10**: monotonicity of the result component of unsigned clamped
addition and multiplication, in each argument, on representable
inputs. -/
theorem clamped_umono (a b1 b2 : Int)
    (ha : uint32InRange a) (hb1 : uint32InRange b1)
    (hb2 : uint32InRange b2) (h : b1 ≤ b2) :
    (Clamped_UAdd32 a b1).1 ≤ (Clamped_UAdd32 a b2).1 ∧
    (Clamped_UMul32 a b1).1 ≤ (Clamped_UMul32 a b2).1 ∧
    (Clamped_UAdd32 b1 a).1 ≤ (Clamped_UAdd32 b2 a).1 ∧
    (Clamped_UMul32 b1 a).1 ≤ (Clamped_UMul32 b2 a).1 := by
  have ha0 : (0 : Int) ≤ a := ha.1
  have k1 : a * b1 ≤ a * b2 := mul_le_mul_of_nonneg_left h ha0
  have k2 : b1 * a ≤ b2 * a := mul_le_mul_of_nonneg_right h ha0
  refine ⟨?_, ?_, ?_, ?_⟩
  · rw [uAdd32_fst ha hb1, uAdd32_fst ha hb2]
    exact clampTo_mono (by omega)
  · unfold Clamped_UMul32
    rw [wrapUInt64_eq_self (umul_product_inRange ha hb1),
      u64To32_fst (umul_product_inRange ha hb1),
      wrapUInt64_eq_self (umul_product_inRange ha hb2),
      u64To32_fst (umul_product_inRange ha hb2)]
    exact clampTo_mono k1
  · rw [uAdd32_fst hb1 ha, uAdd32_fst hb2 ha]
    exact clampTo_mono (by omega)
  · unfold Clamped_UMul32
    rw [wrapUInt64_eq_self (umul_product_inRange hb1 ha),
      u64To32_fst (umul_product_inRange hb1 ha),
      wrapUInt64_eq_self (umul_product_inRange hb2 ha),
      u64To32_fst (umul_product_inRange hb2 ha)]
    exact clampTo_mono k2

/-- Witness for C10 at `a = 3, b1 = 5, b2 = 4294967295`. -/
theorem clamped_umono_witness :
    (Clamped_UAdd32 3 5).1 ≤ (Clamped_UAdd32 3 4294967295).1 :=
  (clamped_umono 3 5 4294967295 (by decide) (by decide) (by decide)
    (by decide)).1

/-- The exact (infinite-precision) values of the arithmetic operations
`Clamped_SAdd32` performs at `int32` width: line 74 of clamped.h
evaluates the single `int32` addition `a + b` whose stored value is the
two's-complement reduction of this exact value (the comparisons at
lines 76 and 81 are not arithmetic operations). -/
def sAdd32_int32Ops (a b : Int) : List Int := [a + b]

/-- The exact values of the arithmetic operations `Clamped_SMul32`
performs at `int64` width: line 210 of clamped.h evaluates the single
`int64` multiplication `(int64)a * b`; nothing is computed at `int32`
width. -/
def sMul32_int64Ops (a b : Int) : List Int := [a * b]

/-- **C8** fails on the code: at `a = INT32_MAX`, `b = 1`, line 74 of
`Clamped_SAdd32` performs an `int32`-width signed addition whose exact
result `2^31` lies outside `[INT32_MIN, INT32_MAX]`, contradicting the
claim that no such operation is performed. -/
theorem clamped_sadd32_evals_overflow :
    (2147483648 : Int) ∈ sAdd32_int32Ops 2147483647 1 ∧
    ¬ int32InRange 2147483648 ∧
    Clamped_SAdd32 2147483647 1 = (MAX_INT32, false) := by
  decide

/-- **C8** (amended): `Clamped_SAdd32` performs exactly one `int32`-width
arithmetic operation — the addition `a + b` of line 74, whose exact
result can lie outside the `int32` range (the stored value is its
two's-complement reduction) — and the sign/direction comparisons on that
stored value report overflow exactly when the exact sum is
unrepresentable; the multiply path performs its arithmetic at `int64`
width, where the exact product of representable `int32` inputs always
lies in range. -/
theorem clamped_sadd32_mechanism (a b : Int)
    (ha : int32InRange a) (hb : int32InRange b) :
    sAdd32_int32Ops a b = [a + b] ∧
    ((Clamped_SAdd32 a b).2 = false ↔ ¬ int32InRange (a + b)) ∧
    (∀ v ∈ sMul32_int64Ops a b, int64InRange v) := by
  refine ⟨rfl, ?_, ?_⟩
  · rw [← sAdd32_snd ha hb]
    simp
  · intro v hv
    simp only [sMul32_int64Ops, List.mem_singleton] at hv
    rw [hv]
    exact smul_product_inRange ha hb

/-- Witness for the amended C8 at `a = INT32_MAX, b = 1`. -/
theorem clamped_sadd32_mechanism_witness :
    (Clamped_SAdd32 2147483647 1).2 = false ↔
      ¬ int32InRange (2147483647 + 1) :=
  (clamped_sadd32_mechanism 2147483647 1 (by decide) (by decide)).2.1
